import Mathlib

/-!
Shallow embedding of `src/repo-processor.py` (CodeBaseInspector).

The program walks a directory tree, classifies every entry (ignored by
pattern, listed-but-not-traversed, excluded by extension / JSON size /
file size, or included), renders included file contents bounded by a
token limit, accumulates an excluded-files list, and finally splits the
rendered output into `.splitN` artifacts when its token count exceeds a
threshold.

The filesystem is modelled as a value of type `FSTree`; `os.listdir`
raising is modelled by a `none` listing and a file whose read raises by
a `none` read result.  The external tokenizer (`tiktoken`, an opaque
text → count collaborator per the spec) is a parameter `tok : String → Nat`.
Machine integers are `Int`/`Nat` (Python integers are unbounded, so no
overflow modelling is needed).
-/

/-- Case-sensitive code-point comparison of character lists, the order
Python uses to compare strings in `sorted` (line 55 of the source). -/
def nameLe : List Char → List Char → Bool
  | [], _ => true
  | _ :: _, [] => false
  | a :: as, b :: bs =>
    if a < b then true
    else if b < a then false
    else nameLe as bs

/-- Case-sensitive string order (code-point lexicographic). -/
def strLe (x y : String) : Prop := nameLe x.data y.data = true

instance : DecidableRel strLe := fun x y =>
  inferInstanceAs (Decidable (nameLe x.data y.data = true))

instance : IsTotal String strLe := by
  constructor
  intro x y
  show nameLe x.data y.data = true ∨ nameLe y.data x.data = true
  generalize x.data = a
  generalize y.data = b
  induction a generalizing b with
  | nil => left; rfl
  | cons c cs ih =>
    cases b with
    | nil => right; rfl
    | cons d ds =>
      rcases lt_trichotomy c d with h | h | h
      · left; simp [nameLe, h]
      · rcases ih ds with h2 | h2
        · left; simp [nameLe, h, h2]
        · right; simp [nameLe, h.symm, h2]
      · right; simp [nameLe, h, asymm h]

instance : IsTrans String strLe := by
  constructor
  intro x y z
  show nameLe x.data y.data = true → nameLe y.data z.data = true →
    nameLe x.data z.data = true
  generalize x.data = a
  generalize y.data = b
  generalize z.data = c
  induction a generalizing b c with
  | nil => intro _ _; rfl
  | cons p ps ih =>
    cases b with
    | nil => intro h; exact absurd h (by simp [nameLe])
    | cons q qs =>
      cases c with
      | nil => intro _ h; exact absurd h (by simp [nameLe])
      | cons r rs =>
        intro h1 h2
        simp only [nameLe] at h1 h2 ⊢
        by_cases hpq : p < q
        · by_cases hqr : q < r
          · simp [lt_trans hpq hqr]
          · by_cases hrq : r < q
            · simp [hqr, hrq] at h2
            · have hq : q = r := le_antisymm (not_lt.mp hrq) (not_lt.mp hqr)
              subst hq
              simp [hpq]
        · by_cases hqp : q < p
          · simp [hpq, hqp] at h1
          · have hp : p = q := le_antisymm (not_lt.mp hqp) (not_lt.mp hpq)
            subst hp
            simp only [lt_irrefl, if_false] at h1
            by_cases hpr : p < r
            · simp [hpr]
            · by_cases hrp : r < p
              · simp [hpr, hrp] at h2
              · have hr : p = r := le_antisymm (not_lt.mp hrp) (not_lt.mp hpr)
                subst hr
                simp only [lt_irrefl, if_false] at h2 ⊢
                exact ih qs rs h1 h2

instance : IsAntisymm String strLe := by
  constructor
  intro x y
  show nameLe x.data y.data = true → nameLe y.data x.data = true → x = y
  intro h1 h2
  apply String.ext
  revert h1 h2
  generalize x.data = a
  generalize y.data = b
  induction a generalizing b with
  | nil =>
    cases b with
    | nil => intro _ _; rfl
    | cons d ds => intro _ h; exact absurd h (by simp [nameLe])
  | cons c cs ih =>
    cases b with
    | nil => intro h _; exact absurd h (by simp [nameLe])
    | cons d ds =>
      intro h1 h2
      simp only [nameLe] at h1 h2
      rcases lt_trichotomy c d with h | h | h
      · simp [h, asymm h] at h2
      · subst h
        simp only [lt_irrefl, if_false] at h1 h2
        simp [ih ds h1 h2]
      · simp [h, asymm h] at h1

/-- Snapshot of a filesystem subtree.  A `file` carries the answer
`os.path.getsize` gives and the result of reading it (`none` models the
`open`/`read`/decode at lines 78-79 raising); a `dir` carries the result
of `os.listdir` (`none` models the listing at line 55 raising, e.g.
permission denied). -/
inductive FSTree where
  | file (name : String) (size : Nat) (readResult : Option String)
  | dir (name : String) (listing : Option (List FSTree))

def FSTree.name : FSTree → String
  | .file n _ _ => n
  | .dir n _ => n

/-- Ordering of directory entries by name, as `sorted(os.listdir(path))`
produces at line 55 (names in a directory are pairwise distinct). -/
def byName (a b : FSTree) : Prop := strLe a.name b.name

instance : DecidableRel byName := fun a b =>
  inferInstanceAs (Decidable (strLe a.name b.name))

instance : IsTotal FSTree byName :=
  ⟨fun a b => IsTotal.total (r := strLe) a.name b.name⟩

instance : IsTrans FSTree byName :=
  ⟨fun _ _ _ h1 h2 => IsTrans.trans (r := strLe) _ _ _ h1 h2⟩

/-- The sibling order used by the walk: `sorted(os.listdir(path))`,
line 55.  Stable sort by case-sensitive name. -/
def sortByName (l : List FSTree) : List FSTree := l.insertionSort byName

/-- The run configuration collected by `argparse` in `main`
(lines 96-106).  Numeric options are Python `int`s, hence `Int`. -/
structure Params where
  token_limit : Int
  json_size_threshold : Int
  exclude_extensions : List String
  ignore_patterns : List String
  max_depth : Int
  max_file_size : Int
  split_threshold : Int
  no_traverse_dirs : List String

/-- The default configuration of lines 97-106. -/
def defaultParams : Params where
  token_limit := 1000
  json_size_threshold := 1048576
  exclude_extensions := [".csv", ".pt", ".pkl", ".bin", ".h5", ".parquet"]
  ignore_patterns := ["node_modules", ".git", "__pycache__"]
  max_depth := 10
  max_file_size := 10485760
  split_threshold := 1000000
  no_traverse_dirs := ["node_modules", "__pycache__"]

/-- Python `re.match(pattern, s)` (line 60) restricted to the regex
fragment actually exercised by the configuration patterns: literal
characters plus the `.` metacharacter (which matches any one
character).  `re.match` is anchored at the START of the string and
succeeds when the pattern matches some prefix of it. -/
def reMatchL : List Char → List Char → Bool
  | [], _ => true
  | _ :: _, [] => false
  | p :: ps, c :: cs => (p = '.' || p = c) && reMatchL ps cs

def reMatch (pattern s : String) : Bool := reMatchL pattern.data s.data

/-- `os.path.join(path, item)` at line 58, for the relative names
produced by `os.listdir`: inserts a `/` separator unless the left part
is empty or already ends in `/`. -/
def joinPath (p n : String) : String :=
  if p = "" then n
  else if p.data.getLast? = some '/' then p ++ n
  else p ++ "/" ++ n

/-- The extension part `os.path.splitext(file_path)[1]` (line 28): the
suffix of the basename from its last dot, where the run of leading dots
of the basename does not count as introducing an extension
(`.bashrc` has extension `""`). -/
def splitextExt (s : String) : String :=
  let base := (s.data.reverse.takeWhile (fun c => c ≠ '/')).reverse
  let rest := base.dropWhile (fun c => c = '.')
  if rest.contains '.' then
    String.mk ('.' :: (rest.reverse.takeWhile (fun c => c ≠ '.')).reverse)
  else ""

/-- Python `str.lower()` applied to an extension (line 28); ASCII case
folding, which covers every extension the program compares against. -/
def lowerStr (s : String) : String := String.mk (s.data.map Char.toLower)

/-- `should_include_file` of lines 27-42: extension exclusion first,
then the JSON size threshold, then the general file-size cap. -/
def should_include_file (file_path : String) (file_size : Nat) (p : Params) : Bool :=
  let ext := lowerStr (splitextExt file_path)
  if ext ∈ p.exclude_extensions then false
  else if ext = ".json" ∧ (file_size : Int) > p.json_size_threshold then false
  else if (file_size : Int) > p.max_file_size then false
  else true

/-- The ignore test of line 60:
`any(re.match(pattern, item_path) for pattern in params['ignore_patterns'])`. -/
def matchesIgnore (p : Params) (path : String) : Bool :=
  p.ignore_patterns.any (fun pat => reMatch pat path)

/-- The indentation `'  ' * current_depth` used by every write. -/
def indentStr (d : Nat) : String := String.mk (List.replicate (2 * d) ' ')

/-- The text written for one included file, lines 75-89: the header
`├── name`, then either the full content under a `Content:` marker
(token count within the limit, line 81), the token-limit omission
notice (line 85), or the read-error placeholder (line 89). -/
def renderFile (tok : String → Nat) (p : Params) (depth : Nat) (n : String)
    (readResult : Option String) : String :=
  indentStr depth ++ "├── " ++ n ++ "\n" ++
    (match readResult with
     | some content =>
       if (tok content : Int) ≤ p.token_limit then
         indentStr (depth + 1) ++ "Content:\n" ++ content ++ "\n\n"
       else
         indentStr (depth + 1) ++ "[Content excluded due to token limit]\n\n"
     | none => indentStr (depth + 1) ++ "[Error processing file]\n\n")

mutual

/-- `process_directory` of lines 44-92.  Returns the text written to
the output file together with the entries appended to `excluded_files`,
or `Except.error ()` when an uncaught exception (a failing
`os.listdir`, line 55 — the only statement of the walk outside any
`try`) propagates out of the call and aborts the run. -/
def process_directory (p : Params) (tok : String → Nat) (path : String) (depth : Nat)
    (listing : Option (List FSTree)) : Except Unit (String × List (String × Nat)) :=
  if (depth : Int) > p.max_depth then .ok ("", [])
  else
    match listing with
    | none => .error ()
    | some children => processItems p tok path depth (sortByName children)
termination_by sizeOf listing
decreasing_by
  simp only [Option.some.sizeOf_spec]
  have := List.Perm.sizeOf_eq_sizeOf (List.perm_insertionSort byName children)
  simp only [sortByName]
  omega

/-- The `for item in items` loop body of lines 57-92, processing the
already-sorted sibling list: ignore-pattern check first (lines 60-63),
then the directory branch with the no-traverse set (lines 65-70), then
the file branch (lines 71-92). -/
def processItems (p : Params) (tok : String → Nat) (path : String) (depth : Nat) :
    List FSTree → Except Unit (String × List (String × Nat))
  | [] => .ok ("", [])
  | item :: rest =>
    let item_path := joinPath path item.name
    if matchesIgnore p item_path then
      (processItems p tok path depth rest).map
        (fun r => (indentStr depth ++ "└── " ++ item.name ++ "/ [Ignored]\n" ++ r.1, r.2))
    else
      match item with
      | .dir n lst =>
        if n ∈ p.no_traverse_dirs then
          (processItems p tok path depth rest).map
            (fun r => (indentStr depth ++ "└── " ++ n ++ "/\n" ++ r.1, r.2))
        else do
          let sub ← process_directory p tok item_path (depth + 1) lst
          let r ← processItems p tok path depth rest
          .ok (indentStr depth ++ "└── " ++ n ++ "/\n" ++ sub.1 ++ r.1, sub.2 ++ r.2)
      | .file n sz readResult =>
        if should_include_file item_path sz p then
          (processItems p tok path depth rest).map
            (fun r => (renderFile tok p depth n readResult ++ r.1, r.2))
        else
          (processItems p tok path depth rest).map
            (fun r => (indentStr depth ++ "├── " ++ n ++ " [Excluded]\n" ++ r.1,
              (item_path, sz) :: r.2))
termination_by items => sizeOf items
decreasing_by
  all_goals simp_arith

end

/-- The split loop of lines 157-180, iterating over the contents of the
intermediate output files with state `(part, current_content,
current_tokens)`; returns the `(file name, content)` pairs written, in
the order they are written.  The final flush (lines 175-179) only fires
when the accumulated content is a non-empty string (Python truthiness
of `current_content`). -/
def splitLoop (tok : String → Nat) (threshold : Int) (base : String) :
    List String → Nat → String → Nat → List (String × String)
  | [], part, current, _ =>
    if current = "" then [] else [(base ++ ".split" ++ toString part, current)]
  | c :: rest, part, current, curTok =>
    if (curTok : Int) + tok c > threshold then
      (base ++ ".split" ++ toString part, current) ::
        splitLoop tok threshold base rest (part + 1) c (tok c)
    else
      splitLoop tok threshold base rest part (current ++ c) (curTok + tok c)

/-- Lines 139-182 of `main`: total token count of the intermediate
output files, and the split pass, entered only when the total exceeds
`split_threshold` (line 150); otherwise no split artifact is written. -/
def splitOutputs (tok : String → Nat) (threshold : Int) (base : String)
    (contents : List String) : List (String × String) :=
  if ((contents.map tok).sum : Int) > threshold then
    splitLoop tok threshold base contents 1 "" 0
  else []

/-- The whole split phase of one run.  `main` opens exactly one
intermediate output file (lines 123-128 append the single name
`args.output` to `output_files`), so the content list the split pass
reads back is the one-element list holding the full rendered text. -/
def mainSplitPhase (tok : String → Nat) (threshold : Int) (base : String)
    (renderedText : String) : List (String × String) :=
  splitOutputs tok threshold base [renderedText]

/-- Splits a character list at every occurrence of `sep` (used to cut
the rendered output into lines for inspection). -/
def splitChar (sep : Char) : List Char → List (List Char)
  | [] => [[]]
  | c :: cs =>
    let r := splitChar sep cs
    if c = sep then [] :: r
    else
      match r with
      | [] => [[c]]
      | h :: t => (c :: h) :: t

/-- The lines of a rendered output text. -/
def linesOf (s : String) : List String := (splitChar '\n' s.data).map String.mk

def listStartsWith : List Char → List Char → Bool
  | [], _ => true
  | _ :: _, [] => false
  | p :: ps, c :: cs => (p = c) && listStartsWith ps cs

def containsSeq (pat : List Char) : List Char → Bool
  | [] => listStartsWith pat []
  | c :: cs => listStartsWith pat (c :: cs) || containsSeq pat cs

/-- Whether `pat` occurs as a contiguous substring of `s`. -/
def containsSub (s pat : String) : Bool := containsSeq pat.data s.data

/-- For each header line of a rendered output, whether it is a
directory header (glyph `└── `, `true`) or a file header (glyph
`├── `, `false`), after stripping the indentation; non-header lines
(content, notices, blanks) are dropped. -/
def headerKinds (s : String) : List Bool :=
  (linesOf s).filterMap (fun l =>
    let t := l.data.dropWhile (fun c => c = ' ')
    if listStartsWith ("└── ".data) t then some true
    else if listStartsWith ("├── ".data) t then some false
    else none)

/-- Modelled from the spec (used only to refute claim C2): the spec's
grouping property for one directory level — all directory headers
before all file headers, or all file headers before all directory
headers. -/
def spec_groupedByKind (ks : List Bool) : Bool :=
  (ks == ks.filter (fun b => b) ++ ks.filter (fun b => !b)) ||
  (ks == ks.filter (fun b => !b) ++ ks.filter (fun b => b))

/-- The default configuration overridden with `--max-depth 0`. -/
def paramsDepth0 : Params :=
  { defaultParams with max_depth := 0 }

/-! Unfolding equations for the walk, and general-purpose lemmas. -/

theorem excBindOk {ε α β : Type} (a : α) (f : α → Except ε β) :
    Bind.bind (Except.ok a) f = f a := rfl

theorem excBindErr {ε α β : Type} (e : ε) (f : α → Except ε β) :
    Bind.bind (Except.error e) f = (Except.error e : Except ε β) := rfl

theorem excMapOk {ε α β : Type} (g : α → β) (a : α) :
    (Except.ok a : Except ε α).map g = .ok (g a) := rfl

theorem processItems_nil (p : Params) (tok : String → Nat) (path : String) (depth : Nat) :
    processItems p tok path depth [] = .ok ("", []) := by
  simp [processItems]

theorem process_directory_deep (p : Params) (tok : String → Nat) (path : String) (depth : Nat)
    (listing : Option (List FSTree)) (h : (depth : Int) > p.max_depth) :
    process_directory p tok path depth listing = .ok ("", []) := by
  rw [process_directory.eq_def]
  simp [h]

theorem process_directory_none (p : Params) (tok : String → Nat) (path : String) (depth : Nat)
    (h : ¬ (depth : Int) > p.max_depth) :
    process_directory p tok path depth none = .error () := by
  rw [process_directory.eq_def]
  simp [h]

theorem process_directory_some (p : Params) (tok : String → Nat) (path : String) (depth : Nat)
    (children : List FSTree) (h : ¬ (depth : Int) > p.max_depth) :
    process_directory p tok path depth (some children) =
      processItems p tok path depth (sortByName children) := by
  rw [process_directory.eq_def]
  simp [h]

theorem processItems_ignored (p : Params) (tok : String → Nat) (path : String) (depth : Nat)
    (item : FSTree) (rest : List FSTree)
    (hm : matchesIgnore p (joinPath path item.name) = true) :
    processItems p tok path depth (item :: rest) =
      (processItems p tok path depth rest).map
        (fun r => (indentStr depth ++ "└── " ++ item.name ++ "/ [Ignored]\n" ++ r.1, r.2)) := by
  rw [processItems.eq_def]
  simp [hm]

theorem processItems_dir_nt (p : Params) (tok : String → Nat) (path : String) (depth : Nat)
    (n : String) (lst : Option (List FSTree)) (rest : List FSTree)
    (hm : matchesIgnore p (joinPath path n) = false) (hnt : n ∈ p.no_traverse_dirs) :
    processItems p tok path depth (.dir n lst :: rest) =
      (processItems p tok path depth rest).map
        (fun r => (indentStr depth ++ "└── " ++ n ++ "/\n" ++ r.1, r.2)) := by
  rw [processItems.eq_def]
  simp [FSTree.name, hm, hnt]

theorem processItems_dir (p : Params) (tok : String → Nat) (path : String) (depth : Nat)
    (n : String) (lst : Option (List FSTree)) (rest : List FSTree)
    (hm : matchesIgnore p (joinPath path n) = false) (hnt : n ∉ p.no_traverse_dirs) :
    processItems p tok path depth (.dir n lst :: rest) = (do
      let sub ← process_directory p tok (joinPath path n) (depth + 1) lst
      let r ← processItems p tok path depth rest
      .ok (indentStr depth ++ "└── " ++ n ++ "/\n" ++ sub.1 ++ r.1, sub.2 ++ r.2)) := by
  rw [processItems.eq_def]
  simp [FSTree.name, hm, hnt]

theorem processItems_file_inc (p : Params) (tok : String → Nat) (path : String) (depth : Nat)
    (n : String) (sz : Nat) (rr : Option String) (rest : List FSTree)
    (hm : matchesIgnore p (joinPath path n) = false)
    (hinc : should_include_file (joinPath path n) sz p = true) :
    processItems p tok path depth (.file n sz rr :: rest) =
      (processItems p tok path depth rest).map
        (fun r => (renderFile tok p depth n rr ++ r.1, r.2)) := by
  rw [processItems.eq_def]
  simp [FSTree.name, hm, hinc]

theorem processItems_file_exc (p : Params) (tok : String → Nat) (path : String) (depth : Nat)
    (n : String) (sz : Nat) (rr : Option String) (rest : List FSTree)
    (hm : matchesIgnore p (joinPath path n) = false)
    (hinc : should_include_file (joinPath path n) sz p = false) :
    processItems p tok path depth (.file n sz rr :: rest) =
      (processItems p tok path depth rest).map
        (fun r => (indentStr depth ++ "├── " ++ n ++ " [Excluded]\n" ++ r.1,
          (joinPath path n, sz) :: r.2)) := by
  rw [processItems.eq_def]
  simp [FSTree.name, hm, hinc]

theorem should_include_file_of (fp : String) (sz : Nat) (p2 : Params)
    (h1 : lowerStr (splitextExt fp) ∉ p2.exclude_extensions)
    (h2 : ¬ (lowerStr (splitextExt fp) = ".json" ∧ (sz : Int) > p2.json_size_threshold))
    (h3 : ¬ (sz : Int) > p2.max_file_size) :
    should_include_file fp sz p2 = true := by
  show (if lowerStr (splitextExt fp) ∈ p2.exclude_extensions then false
    else if lowerStr (splitextExt fp) = ".json" ∧ (sz : Int) > p2.json_size_threshold then false
    else if (sz : Int) > p2.max_file_size then false
    else true) = true
  rw [if_neg h1, if_neg h2, if_neg h3]

theorem eq_of_perm_of_map_eq {α β : Type} (f : α → β) :
    ∀ (l l2 : List α), l.Perm l2 → l.map f = l2.map f → (l.map f).Nodup → l = l2 := by
  intro l
  induction l with
  | nil =>
    intro l2 hp _ _
    exact hp.symm.eq_nil.symm
  | cons a t ih =>
    intro l2 hp hm hnd
    cases l2 with
    | nil => exact absurd hp.eq_nil (by simp)
    | cons b t2 =>
      simp only [List.map_cons, List.cons.injEq] at hm
      obtain ⟨h1, h2⟩ := hm
      have hab : a = b := by
        have hmem : a ∈ b :: t2 := hp.subset (List.mem_cons_self a t)
        rcases List.mem_cons.mp hmem with h | h
        · exact h
        · exfalso
          have hnd2 : (f b :: t2.map f).Nodup := by
            have hx : (f a :: t.map f).Nodup := by simpa using hnd
            rw [h1, h2] at hx
            exact hx
          have : f a ∈ t2.map f := List.mem_map_of_mem f h
          rw [h1] at this
          exact (List.nodup_cons.mp hnd2).1 this
      subst hab
      have hp2 : t.Perm t2 := hp.cons_inv
      have hnd2 : (t.map f).Nodup := (List.nodup_cons.mp hnd).2
      rw [ih t2 hp2 h2 hnd2]

theorem sortByName_eq_of_perm (l l2 : List FSTree) (hp : l.Perm l2)
    (hnd : (l.map FSTree.name).Nodup) : sortByName l = sortByName l2 := by
  apply eq_of_perm_of_map_eq FSTree.name
  · exact (List.perm_insertionSort byName l).trans
      (hp.trans (List.perm_insertionSort byName l2).symm)
  · apply List.eq_of_perm_of_sorted (r := strLe)
    · exact ((List.perm_insertionSort byName l).map _).trans
        ((hp.map _).trans (((List.perm_insertionSort byName l2).map _).symm))
    · exact (List.sorted_insertionSort byName l).map _ (fun _ _ h => h)
    · exact (List.sorted_insertionSort byName l2).map _ (fun _ _ h => h)
  · exact (((List.perm_insertionSort byName l).map FSTree.name).nodup_iff).mpr hnd

theorem sortByName_names_sorted (l : List FSTree) :
    List.Sorted strLe ((sortByName l).map FSTree.name) :=
  (List.sorted_insertionSort byName l).map _ (fun _ _ h => h)

theorem ne_self_append (b t : String) (ht : t.length ≠ 0) : b ++ t ≠ b := by
  intro he
  have h2 := congrArg String.length he
  rw [String.length_append] at h2
  omega

theorem mainSplit_eval (tok : String → Nat) (base c : String) (threshold : Int)
    (htrig : (tok c : Int) > threshold) (hne : c ≠ "") :
    mainSplitPhase tok threshold base c =
      [(base ++ ".split1", ""), (base ++ ".split2", c)] := by
  have hgt : ((0 : Nat) : Int) + tok c > threshold := by simpa using htrig
  have e1 : base ++ ".split" ++ toString (1 : Nat) = base ++ ".split1" := by
    rw [String.append_assoc]
    exact congrArg (fun t => base ++ t) (by decide)
  have e2 : base ++ ".split" ++ toString (1 + 1 : Nat) = base ++ ".split2" := by
    rw [String.append_assoc]
    exact congrArg (fun t => base ++ t) (by decide)
  unfold mainSplitPhase splitOutputs
  rw [if_pos (by simpa using htrig)]
  simp only [splitLoop]
  rw [if_pos hgt, if_neg hne, e1, e2]

theorem defaultScenario_eval (tok : String → Nat) (appC : String) (szA szL szB : Nat)
    (h50 : tok appC = 50) (hA : (szA : Int) ≤ defaultParams.max_file_size) :
    process_directory defaultParams tok "repo" 0
      (some [FSTree.dir "src" (some [FSTree.file "app.py" szA (some appC)]),
             FSTree.dir "node_modules" (some [FSTree.file "lib.js" szL (some "x")]),
             FSTree.file "data.bin" szB none]) =
    .ok ("├── data.bin [Excluded]\n└── node_modules/\n└── src/\n  ├── app.py\n    Content:\n"
        ++ appC ++ "\n\n",
      [("repo/data.bin", szB)]) := by
  have hd0 : ¬ ((0 : Nat) : Int) > defaultParams.max_depth := by decide
  have hd1 : ¬ ((0 + 1 : Nat) : Int) > defaultParams.max_depth := by decide
  have hsort : sortByName
      [FSTree.dir "src" (some [FSTree.file "app.py" szA (some appC)]),
       FSTree.dir "node_modules" (some [FSTree.file "lib.js" szL (some "x")]),
       FSTree.file "data.bin" szB none] =
      [FSTree.file "data.bin" szB none,
       FSTree.dir "node_modules" (some [FSTree.file "lib.js" szL (some "x")]),
       FSTree.dir "src" (some [FSTree.file "app.py" szA (some appC)])] := rfl
  have hsort2 : sortByName [FSTree.file "app.py" szA (some appC)] =
      [FSTree.file "app.py" szA (some appC)] := rfl
  have hm1 : matchesIgnore defaultParams (joinPath "repo" "data.bin") = false := by decide
  have hm2 : matchesIgnore defaultParams (joinPath "repo" "node_modules") = false := by decide
  have hm3 : matchesIgnore defaultParams (joinPath "repo" "src") = false := by decide
  have hm4 : matchesIgnore defaultParams (joinPath (joinPath "repo" "src") "app.py") = false := by
    decide
  have hiB : should_include_file (joinPath "repo" "data.bin") szB defaultParams = false := rfl
  have hiA : should_include_file (joinPath (joinPath "repo" "src") "app.py") szA
      defaultParams = true :=
    should_include_file_of _ _ _ (by decide)
      (fun hand => absurd hand.1 (by decide)) (not_lt.mpr hA)
  have hnm : "node_modules" ∈ defaultParams.no_traverse_dirs := by decide
  have hsrc : ¬ "src" ∈ defaultParams.no_traverse_dirs := by decide
  have hlim : ((50 : Nat) : Int) ≤ defaultParams.token_limit := by decide
  have hjB : joinPath "repo" "data.bin" = "repo/data.bin" := rfl
  simp only [process_directory_some, hd0, hd1, hsort, hsort2, processItems_file_exc,
    processItems_dir_nt, processItems_dir, processItems_file_inc, processItems_nil,
    hm1, hm2, hm3, hm4, hiB, hiA, hnm, hsrc, excBindOk, excMapOk, renderFile, h50, hlim,
    if_true, not_false_eq_true]
  have hi0 : indentStr 0 = "" := rfl
  have hi1 : indentStr (0 + 1) = "  " := rfl
  have hi2 : indentStr (0 + 1 + 1) = "    " := rfl
  simp only [hi0, hi1, hi2, String.empty_append, String.append_empty, Except.ok.injEq,
    Prod.mk.injEq, List.append_nil, hjB]
  refine ⟨?_, trivial⟩
  apply String.ext
  simp only [String.data_append, List.append_assoc]
  simp only [List.cons_append, List.nil_append, List.append_assoc]

/-! Claims. -/

/-- C1: a filesystem entry that both matches an ignore pattern and is a
file whose extension is in the exclude list is reported as Ignored (the
ignored line is emitted and the entry skipped) and never as
ExcludedByExtension: the ignore check (line 60) is decided before any
extension, JSON-size or file-size rule ever runs, and such an entry is
never appended to the excluded-files log — the rest of the walk is
unchanged. -/
theorem C1_ignore_beats_extension (p : Params) (tok : String → Nat) (path : String)
    (depth : Nat) (n : String) (sz : Nat) (rr : Option String) (rest : List FSTree)
    (hm : matchesIgnore p (joinPath path n) = true)
    (_hext : lowerStr (splitextExt (joinPath path n)) ∈ p.exclude_extensions) :
    processItems p tok path depth (.file n sz rr :: rest) =
      (processItems p tok path depth rest).map
        (fun r => (indentStr depth ++ "└── " ++ n ++ "/ [Ignored]\n" ++ r.1, r.2)) :=
  processItems_ignored p tok path depth (.file n sz rr) rest hm

/-- C1 witness: the default-ignored path `node_modules/x.bin` with the
default-excluded extension `.bin`. -/
theorem C1_witness :
    processItems defaultParams String.length "node_modules" 0 [FSTree.file "x.bin" 3 none] =
      (processItems defaultParams String.length "node_modules" 0 []).map
        (fun r => (indentStr 0 ++ "└── " ++ "x.bin" ++ "/ [Ignored]\n" ++ r.1, r.2)) :=
  C1_ignore_beats_extension defaultParams String.length "node_modules" 0 "x.bin" 3 none []
    (by decide) (by decide)

/-- C6: an Included file whose read fails renders the error-notice body
in place of content (line 89), no exception escapes the per-file
try/except (lines 77-89), and the remaining entries are still
processed; the excluded-files log is not touched. -/
theorem C6_read_error_recovered (p : Params) (tok : String → Nat) (path : String)
    (depth : Nat) (n : String) (sz : Nat) (rest : List FSTree)
    (hm : matchesIgnore p (joinPath path n) = false)
    (hinc : should_include_file (joinPath path n) sz p = true) :
    processItems p tok path depth (.file n sz none :: rest) =
      (processItems p tok path depth rest).map
        (fun r => (indentStr depth ++ "├── " ++ n ++ "\n" ++
          (indentStr (depth + 1) ++ "[Error processing file]\n\n") ++ r.1, r.2)) := by
  rw [processItems_file_inc p tok path depth n sz none rest hm hinc]
  rfl

/-- C6 witness: a root-level `x.py` whose read fails. -/
theorem C6_witness :
    processItems defaultParams String.length "repo" 0 [FSTree.file "x.py" 1 none] =
      (processItems defaultParams String.length "repo" 0 []).map
        (fun r => (indentStr 0 ++ "├── " ++ "x.py" ++ "\n" ++
          (indentStr (0 + 1) ++ "[Error processing file]\n\n") ++ r.1, r.2)) :=
  C6_read_error_recovered defaultParams String.length "repo" 0 "x.py" 1 []
    (by decide) (by decide)

/-- C7: for an Included file that reads successfully, the rendered body
is the full content when the token count is within the limit (lines
81-83) and the deterministic omission notice — never the full content —
when it exceeds the limit (line 85). -/
theorem C7_content_limit_policy (p : Params) (tok : String → Nat) (path : String)
    (depth : Nat) (n : String) (sz : Nat) (c : String) (rest : List FSTree)
    (hm : matchesIgnore p (joinPath path n) = false)
    (hinc : should_include_file (joinPath path n) sz p = true) :
    ∃ body,
      processItems p tok path depth (.file n sz (some c) :: rest) =
        (processItems p tok path depth rest).map
          (fun r => (indentStr depth ++ "├── " ++ n ++ "\n" ++ body ++ r.1, r.2)) ∧
      ((tok c : Int) ≤ p.token_limit →
        body = indentStr (depth + 1) ++ "Content:\n" ++ c ++ "\n\n") ∧
      ((tok c : Int) > p.token_limit →
        body = indentStr (depth + 1) ++ "[Content excluded due to token limit]\n\n") := by
  rw [processItems_file_inc p tok path depth n sz (some c) rest hm hinc]
  by_cases h : (tok c : Int) ≤ p.token_limit
  · refine ⟨indentStr (depth + 1) ++ "Content:\n" ++ c ++ "\n\n", ?_, fun _ => rfl,
      fun hgt => absurd h (not_le.mpr hgt)⟩
    simp [renderFile, h]
  · refine ⟨indentStr (depth + 1) ++ "[Content excluded due to token limit]\n\n", ?_,
      fun hle => absurd hle h, fun _ => rfl⟩
    simp [renderFile, h]

/-- C7 witness: a root-level `a.py` containing `hello`, 5 tokens under
the tokenizer that counts characters, within the default limit. -/
theorem C7_witness :
    ∃ body,
      processItems defaultParams String.length "repo" 0
          [FSTree.file "a.py" 5 (some "hello")] =
        (processItems defaultParams String.length "repo" 0 []).map
          (fun r => (indentStr 0 ++ "├── " ++ "a.py" ++ "\n" ++ body ++ r.1, r.2)) ∧
      ((String.length "hello" : Int) ≤ defaultParams.token_limit →
        body = indentStr (0 + 1) ++ "Content:\n" ++ "hello" ++ "\n\n") ∧
      ((String.length "hello" : Int) > defaultParams.token_limit →
        body = indentStr (0 + 1) ++ "[Content excluded due to token limit]\n\n") :=
  C7_content_limit_policy defaultParams String.length "repo" 0 "a.py" 5 "hello" []
    (by decide) (by decide)

/-- C9: an entry matching an ignore pattern is rendered with the
directory-style line `<indent>└── <name>/ [Ignored]` whether it is a
file or a directory (line 62 runs before the `isdir` check of line 65),
so an ignored file is indistinguishable from an ignored directory and
never uses the `├── <name>` file-header format. -/
theorem C9_ignored_file_rendered_as_dir (p : Params) (tok : String → Nat) (path : String)
    (depth : Nat) (n : String) (sz : Nat) (rr : Option String)
    (lst : Option (List FSTree)) (rest : List FSTree)
    (hm : matchesIgnore p (joinPath path n) = true) :
    (processItems p tok path depth (.file n sz rr :: rest) =
      processItems p tok path depth (.dir n lst :: rest)) ∧
    processItems p tok path depth (.file n sz rr :: rest) =
      (processItems p tok path depth rest).map
        (fun r => (indentStr depth ++ "└── " ++ n ++ "/ [Ignored]\n" ++ r.1, r.2)) := by
  constructor
  · rw [processItems_ignored p tok path depth (.file n sz rr) rest hm,
      processItems_ignored p tok path depth (.dir n lst) rest hm]
    rfl
  · exact processItems_ignored p tok path depth (.file n sz rr) rest hm

/-- C9 witness: inside a root literally named `node_modules`, the file
`y.txt` matches the default ignore pattern and is rendered exactly like
an ignored directory of the same name. -/
theorem C9_witness :
    (processItems defaultParams String.length "node_modules" 0
        [FSTree.file "y.txt" 2 (some "ab")] =
      processItems defaultParams String.length "node_modules" 0
        [FSTree.dir "y.txt" (some [])]) ∧
    processItems defaultParams String.length "node_modules" 0
        [FSTree.file "y.txt" 2 (some "ab")] =
      (processItems defaultParams String.length "node_modules" 0 []).map
        (fun r => (indentStr 0 ++ "└── " ++ "y.txt" ++ "/ [Ignored]\n" ++ r.1, r.2)) :=
  C9_ignored_file_rendered_as_dir defaultParams String.length "node_modules" 0 "y.txt" 2
    (some "ab") (some []) [] (by decide)

/-- C2 counterexample: with the default configuration, a root listing
holding the files `a.bin`, `c.bin` and the directory `b` is emitted as
file header, directory header, file header — plain case-sensitive name
order with the kinds interleaved — so no grouping of directories before
files (nor files before directories) holds for the emitted siblings. -/
theorem C2_counterexample :
    process_directory defaultParams String.length "repo" 0
        (some [FSTree.file "a.bin" 1 none, FSTree.dir "b" (some []),
          FSTree.file "c.bin" 1 none]) =
      .ok ("├── a.bin [Excluded]\n└── b/\n├── c.bin [Excluded]\n",
        [("repo/a.bin", 1), ("repo/c.bin", 1)]) ∧
    spec_groupedByKind
      (headerKinds "├── a.bin [Excluded]\n└── b/\n├── c.bin [Excluded]\n") = false := by
  constructor
  · have hd0 : ¬ ((0 : Nat) : Int) > defaultParams.max_depth := by decide
    have hd1 : ¬ ((0 + 1 : Nat) : Int) > defaultParams.max_depth := by decide
    have hs : sortByName [FSTree.file "a.bin" 1 none, FSTree.dir "b" (some []),
        FSTree.file "c.bin" 1 none] = [FSTree.file "a.bin" 1 none, FSTree.dir "b" (some []),
        FSTree.file "c.bin" 1 none] := rfl
    have hs2 : sortByName [] = [] := rfl
    have hm1 : matchesIgnore defaultParams (joinPath "repo" "a.bin") = false := by decide
    have hm2 : matchesIgnore defaultParams (joinPath "repo" "b") = false := by decide
    have hm3 : matchesIgnore defaultParams (joinPath "repo" "c.bin") = false := by decide
    have hi1 : should_include_file (joinPath "repo" "a.bin") 1 defaultParams = false := by decide
    have hi3 : should_include_file (joinPath "repo" "c.bin") 1 defaultParams = false := by decide
    have hnt : ¬ "b" ∈ defaultParams.no_traverse_dirs := by decide
    simp only [process_directory_some, processItems_file_exc, processItems_dir,
      processItems_nil, excBindOk, excMapOk, hd0, hd1, hs, hs2, hm1, hm2, hm3, hi1, hi3, hnt,
      not_false_eq_true]
    rfl
  · decide

/-- C2 (amended): sibling entries are emitted in case-sensitive name
order with directories and files interleaved — there is no grouping by
kind — and, because the walk sorts the OS listing, the output does not
depend on the order in which the listing returns the entries (for the
pairwise-distinct names a real directory has). -/
theorem C2_sorted_not_grouped (p : Params) (tok : String → Nat) (path : String)
    (depth : Nat) (l l2 : List FSTree) (hp : l.Perm l2)
    (hnd : (l.map FSTree.name).Nodup) :
    process_directory p tok path depth (some l) =
      process_directory p tok path depth (some l2) ∧
    List.Sorted strLe ((sortByName l).map FSTree.name) := by
  constructor
  · by_cases h : (depth : Int) > p.max_depth
    · rw [process_directory_deep p tok path depth _ h,
        process_directory_deep p tok path depth _ h]
    · rw [process_directory_some p tok path depth l h,
        process_directory_some p tok path depth l2 h,
        sortByName_eq_of_perm l l2 hp hnd]
  · exact sortByName_names_sorted l

/-- C2 witness: the listings `[b, a]` and `[a, b]` (two orders the OS
could return) produce identical output, and the processed sibling
names are sorted. -/
theorem C2_witness :
    (process_directory defaultParams String.length "repo" 0
        (some [FSTree.file "b" 1 none, FSTree.file "a" 1 none]) =
      process_directory defaultParams String.length "repo" 0
        (some [FSTree.file "a" 1 none, FSTree.file "b" 1 none])) ∧
    List.Sorted strLe ((sortByName [FSTree.file "b" 1 none, FSTree.file "a" 1 none]).map
      FSTree.name) :=
  C2_sorted_not_grouped defaultParams String.length "repo" 0 _ _
    (List.Perm.swap (FSTree.file "a" 1 none) (FSTree.file "b" 1 none) [])
    (by decide)

/-- C5 counterexample: a run over a root whose subdirectory `bad`
cannot be listed aborts with the uncaught exception — the sibling
`z.txt` is never reached, nothing is rendered, and no inline error
marker exists — contradicting the claim that the traversal continues. -/
theorem C5_counterexample :
    process_directory defaultParams String.length "repo" 0
        (some [FSTree.dir "bad" none, FSTree.file "z.txt" 2 (some "hi")]) =
      .error () := by
  have hd0 : ¬ ((0 : Nat) : Int) > defaultParams.max_depth := by decide
  have hd1 : ¬ ((0 + 1 : Nat) : Int) > defaultParams.max_depth := by decide
  have hs : sortByName [FSTree.dir "bad" none, FSTree.file "z.txt" 2 (some "hi")] =
      [FSTree.dir "bad" none, FSTree.file "z.txt" 2 (some "hi")] := rfl
  have hm1 : matchesIgnore defaultParams (joinPath "repo" "bad") = false := by decide
  have hnt : ¬ "bad" ∈ defaultParams.no_traverse_dirs := by decide
  simp only [process_directory_some, processItems_dir, process_directory_none,
    excBindErr, hd0, hd1, hs, hm1, hnt, not_false_eq_true]

/-- C5 (amended): an error while listing a visited subdirectory (one
not skipped by the ignore patterns, the no-traverse set, or the depth
bound) is not caught anywhere: it propagates out of the sibling loop,
so the remaining siblings are never traversed, no inline marker is
emitted, and the run terminates with the error. -/
theorem C5_listing_error_aborts (p : Params) (tok : String → Nat) (path : String)
    (depth : Nat) (n : String) (rest : List FSTree)
    (hm : matchesIgnore p (joinPath path n) = false)
    (hnt : n ∉ p.no_traverse_dirs)
    (hd : ¬ ((depth + 1 : Nat) : Int) > p.max_depth) :
    processItems p tok path depth (.dir n none :: rest) = .error () := by
  rw [processItems_dir p tok path depth n none rest hm hnt]
  rw [process_directory_none p tok (joinPath path n) (depth + 1) hd]
  rfl

/-- C5 witness: an unlistable directory `bad` aborts the processing of
its sibling list. -/
theorem C5_witness :
    processItems defaultParams String.length "repo" 0
      [FSTree.dir "bad" none, FSTree.file "z.txt" 2 (some "hi")] = .error () :=
  C5_listing_error_aborts defaultParams String.length "repo" 0 "bad"
    [FSTree.file "z.txt" 2 (some "hi")] (by decide) (by decide) (by decide)

/-- C8 counterexample: with `max_depth = 0`, descending into the
directory `d` stops silently — the output is just the `d/` header and
contains no occurrence of a "[Max depth reached]" marker (no such
string exists anywhere in the program's writes; line 52 only logs). -/
theorem C8_counterexample :
    process_directory paramsDepth0 String.length "repo" 0
        (some [FSTree.dir "d" (some [FSTree.file "x.txt" 2 (some "hi")])]) =
      .ok ("└── d/\n", []) ∧
    containsSub "└── d/\n" "[Max depth reached]" = false := by
  constructor
  · have hd0 : ¬ ((0 : Nat) : Int) > paramsDepth0.max_depth := by decide
    have hd1 : ((0 + 1 : Nat) : Int) > paramsDepth0.max_depth := by decide
    have hs : sortByName [FSTree.dir "d" (some [FSTree.file "x.txt" 2 (some "hi")])] =
        [FSTree.dir "d" (some [FSTree.file "x.txt" 2 (some "hi")])] := rfl
    have hm1 : matchesIgnore paramsDepth0 (joinPath "repo" "d") = false := by decide
    have hnt : ¬ "d" ∈ paramsDepth0.no_traverse_dirs := by decide
    simp only [process_directory_some, processItems_dir, process_directory_deep,
      processItems_nil, excBindOk, excMapOk, hd0, hd1, hs, hm1, hnt, not_false_eq_true]
    rfl
  · decide

/-- C8 (amended): at depth `d > maxDepth` the recursion stops and
contributes nothing at all to the output — no "[Max depth reached]"
marker is emitted (the skip is only recorded in the diagnostic log) —
and entries beyond that depth are never classified and never appended
to the excluded-files log; in particular with `maxDepth = 0` only the
root's immediate children appear as headers. -/
theorem C8_depth_bound_silent (p : Params) (tok : String → Nat) (path : String)
    (depth : Nat) (listing : Option (List FSTree))
    (h : (depth : Int) > p.max_depth) :
    process_directory p tok path depth listing = .ok ("", []) :=
  process_directory_deep p tok path depth listing h

/-- C8 witness: at depth 11 with the default bound 10 the walk returns
nothing. -/
theorem C8_witness :
    process_directory defaultParams String.length "repo" 11
      (some [FSTree.file "a" 1 none]) = .ok ("", []) :=
  C8_depth_bound_silent defaultParams String.length "repo" 11
    (some [FSTree.file "a" 1 none]) (by decide)

/-- C3 counterexample: with `--split-threshold -1` and a two-token
rendered text, the split pass writes the empty first segment and the
whole text as the second segment; the first segment's measured size
(0 tokens) exceeds the threshold although it is not the single
oversized block, so the segment-size bound of the claim fails. -/
theorem C3_counterexample :
    mainSplitPhase String.length (-1) "out" "ab" =
      [("out.split1", ""), ("out.split2", "ab")] ∧
    (String.length "" : Int) > -1 ∧ ("" : String) ≠ "ab" := by
  refine ⟨by decide, by decide, by decide⟩

/-- C3 (amended): whenever the output splits (and the threshold is a
genuine size, i.e. nonnegative — the real tokenizer gives the empty
string measure 0), the written segments are `.split1` (empty) and
`.split2` (the whole text) in that order, concatenating them in part
order reproduces the rendered text exactly, and every segment is
within the threshold except the single whole-text chunk that alone
exceeds it. -/
theorem C3_split_fidelity (tok : String → Nat) (base c : String) (threshold : Int)
    (htrig : (tok c : Int) > threshold) (h0 : 0 ≤ threshold) (hempty : tok "" = 0) :
    mainSplitPhase tok threshold base c =
      [(base ++ ".split1", ""), (base ++ ".split2", c)] ∧
    String.join ((mainSplitPhase tok threshold base c).map Prod.snd) = c ∧
    ∀ s ∈ mainSplitPhase tok threshold base c,
      (tok s.2 : Int) ≤ threshold ∨ s.2 = c := by
  have hc : c ≠ "" := by
    intro h
    subst h
    rw [hempty] at htrig
    simp only [Nat.cast_zero] at htrig
    omega
  have hmain := mainSplit_eval tok base c threshold htrig hc
  refine ⟨hmain, ?_, ?_⟩
  · rw [hmain]
    show String.join ["", c] = c
    show ("" ++ "") ++ c = c
    rw [String.empty_append, String.empty_append]
  · intro s hs
    rw [hmain] at hs
    rcases List.mem_cons.mp hs with h | h
    · subst h
      left
      rw [hempty]
      simpa using h0
    · rcases List.mem_cons.mp h with h2 | h2
      · subst h2
        right
        rfl
      · exact absurd h2 (List.not_mem_nil _)

/-- C3 witness: a two-character text against threshold 1 with the
character-counting tokenizer. -/
theorem C3_witness :
    mainSplitPhase String.length 1 "out" "ab" =
      [("out" ++ ".split1", ""), ("out" ++ ".split2", "ab")] ∧
    String.join ((mainSplitPhase String.length 1 "out" "ab").map Prod.snd) = "ab" ∧
    ∀ s ∈ mainSplitPhase String.length 1 "out" "ab",
      (String.length s.2 : Int) ≤ 1 ∨ s.2 = "ab" :=
  C3_split_fidelity String.length "out" "ab" 1 (by decide) (by decide) (by decide)

/-- C4 counterexample: running the claim's scenario (root with
`src/app.py` of 50 tokens, `node_modules/lib.js`, `data.bin`, default
configuration) produces an output that contains no "[Ignored]"
annotation at all: `re.match` anchors the pattern `node_modules` at
the start of the full path `repo/node_modules`, so it never matches,
and the directory is listed as a plain header (its children are still
absent only because `node_modules` is in the default no-traverse set). -/
theorem C4_counterexample :
    process_directory defaultParams (fun _ => 50) "repo" 0
        (some [FSTree.dir "src" (some [FSTree.file "app.py" 3 (some "x = 1")]),
               FSTree.dir "node_modules" (some [FSTree.file "lib.js" 4 (some "x")]),
               FSTree.file "data.bin" 7 none]) =
      .ok ("├── data.bin [Excluded]\n└── node_modules/\n└── src/\n  ├── app.py\n    Content:\nx = 1\n\n",
        [("repo/data.bin", 7)]) ∧
    containsSub
      "├── data.bin [Excluded]\n└── node_modules/\n└── src/\n  ├── app.py\n    Content:\nx = 1\n\n"
      "[Ignored]" = false := by
  constructor
  · rw [defaultScenario_eval (fun _ => 50) "x = 1" 3 4 7 rfl (by decide)]
    exact congrArg Except.ok (by decide)
  · decide

/-- C4 (amended): for the scenario's root tree under the default
configuration, the output lists `data.bin` as `[Excluded]`, then a
plain `node_modules/` header with none of its children (plain because
the anchored `re.match` of the pattern against the full path never
fires for this root; the children are suppressed by the no-traverse
set), then `src/` with `app.py` and its full content (50 ≤ 1000
tokens); the excluded-files log holds exactly the one entry for
`data.bin` with its size. -/
theorem C4_default_scenario (tok : String → Nat) (appC : String) (szA szL szB : Nat)
    (h50 : tok appC = 50) (hA : (szA : Int) ≤ defaultParams.max_file_size) :
    process_directory defaultParams tok "repo" 0
      (some [FSTree.dir "src" (some [FSTree.file "app.py" szA (some appC)]),
             FSTree.dir "node_modules" (some [FSTree.file "lib.js" szL (some "x")]),
             FSTree.file "data.bin" szB none]) =
    .ok ("├── data.bin [Excluded]\n└── node_modules/\n└── src/\n  ├── app.py\n    Content:\n"
        ++ appC ++ "\n\n",
      [("repo/data.bin", szB)]) :=
  defaultScenario_eval tok appC szA szL szB h50 hA

/-- C4 witness: the scenario with concrete sizes and a 50-token
`app.py` content. -/
theorem C4_witness :
    process_directory defaultParams (fun _ => 50) "repo" 0
      (some [FSTree.dir "src" (some [FSTree.file "app.py" 5 (some "y = 2")]),
             FSTree.dir "node_modules" (some [FSTree.file "lib.js" 6 (some "x")]),
             FSTree.file "data.bin" 9 none]) =
    .ok ("├── data.bin [Excluded]\n└── node_modules/\n└── src/\n  ├── app.py\n    Content:\n"
        ++ "y = 2" ++ "\n\n",
      [("repo/data.bin", 9)]) :=
  C4_default_scenario (fun _ => 50) "y = 2" 5 6 9 rfl (by decide)

/-- C10 counterexample: with `--split-threshold -1` and an empty
rendered text (an empty root directory), splitting is triggered
(0 > -1) but only ONE split artifact is written — the empty
`.split1` — because the final flush of lines 175-179 is skipped for
the empty accumulated content; the claim's "exactly two" fails. -/
theorem C10_counterexample :
    mainSplitPhase String.length (-1) "out" "" = [("out.split1", "")] := by decide

/-- C10 (amended): whenever splitting is triggered and the primary
text is non-empty (which holds in every run whose threshold is a
genuine nonnegative size), exactly two split artifacts are written:
part 1 (`<output>.split1`) is empty and part 2 (`<output>.split2`)
holds the entire primary text, because the intermediate file list is
the single primary file whose token count alone exceeds the
threshold; no split artifact is named like the primary artifact, which
stays untouched. -/
theorem C10_split_two_parts (tok : String → Nat) (base c : String) (threshold : Int)
    (htrig : (tok c : Int) > threshold) (hne : c ≠ "") :
    mainSplitPhase tok threshold base c =
      [(base ++ ".split1", ""), (base ++ ".split2", c)] ∧
    ∀ s ∈ mainSplitPhase tok threshold base c, s.1 ≠ base := by
  have hmain := mainSplit_eval tok base c threshold htrig hne
  refine ⟨hmain, ?_⟩
  intro s hs
  rw [hmain] at hs
  rcases List.mem_cons.mp hs with h | h
  · subst h
    exact ne_self_append base ".split1" (by decide)
  · rcases List.mem_cons.mp h with h2 | h2
    · subst h2
      exact ne_self_append base ".split2" (by decide)
    · exact absurd h2 (List.not_mem_nil _)

/-- C10 witness: a two-character primary text against threshold 0. -/
theorem C10_witness :
    mainSplitPhase String.length 0 "out" "ab" =
      [("out" ++ ".split1", ""), ("out" ++ ".split2", "ab")] ∧
    ∀ s ∈ mainSplitPhase String.length 0 "out" "ab", s.1 ≠ "out" :=
  C10_split_two_parts String.length "out" "ab" 0 (by decide) (by decide)
